import Mathlib

set_option maxRecDepth 100000

/-!
Verification development for the wallet-migrator bundle engine
(`src/utils/eip7702-bundle.ts` and the network-aware gas estimator in
`src/app/features/SignAuthorization/sign-auth.tsx`).

The TypeScript source is shallowly embedded:
* JS `number` (IEEE-754 binary64) arithmetic is modelled over exact
  fractions (`Frac`, an integer numerator over a positive natural
  denominator, kept unreduced so every operation is elementary integer
  arithmetic) with an explicit round-to-nearest-even function at 53
  significant bits (`fpRound`).  The exponent is unbounded, which agrees
  with binary64 for every value in the normal range; none of the inputs
  used below reach subnormal or overflow territory.  Bridging lemmas at
  the end relate the `Frac` operations to `ℚ`.
* balance strings are modelled as decimal numerals `m / 10^k`
  (`DecimalNum`), the grammar produced by the inventory layer;
  `Number.parseFloat` of such a numeral returns the nearest double
  (ECMA-262 guarantees the correctly rounded result for up to 20
  significant digits, which covers every numeral used here).
* `bigint` values are `ℕ`/`ℤ`; hex call-data strings are Lean `String`s
  built exactly as the source builds them (string primitives are spelled
  out over the character list so they compute by rewriting).
* external interactions (wallet RPC, chain reads, transaction
  submission) are an explicit environment `Env`; functions that submit
  transactions also return the ordered list of submission effects.
-/

/-! ## Exact fractions and the IEEE-754 binary64 model -/

/-- An exact fraction `num / den` with `den` kept positive by every
operation below.  No gcd normalisation is performed, so all operations
are plain integer arithmetic. -/
structure Frac where
  num : ℤ
  den : ℕ
deriving DecidableEq

/-- The fraction `n / 1`. -/
def Frac.ofInt (n : ℤ) : Frac := ⟨n, 1⟩

/-- Exact product of two fractions. -/
def Frac.mul (a b : Frac) : Frac := ⟨a.num * b.num, a.den * b.den⟩

/-- Negation. -/
def Frac.neg (a : Frac) : Frac := ⟨-a.num, a.den⟩

/-- Exact quotient of two fractions, keeping the denominator positive. -/
def Frac.divF (a b : Frac) : Frac :=
  if 0 ≤ b.num then ⟨a.num * (b.den : ℤ), a.den * b.num.toNat⟩
  else ⟨-(a.num * (b.den : ℤ)), a.den * (-b.num).toNat⟩

/-- `a ≤ b` by cross-multiplication (denominators positive). -/
def Frac.ble (a b : Frac) : Bool :=
  decide (a.num * (b.den : ℤ) ≤ b.num * (a.den : ℤ))

/-- `a < b` by cross-multiplication (denominators positive). -/
def Frac.blt (a b : Frac) : Bool :=
  decide (a.num * (b.den : ℤ) < b.num * (a.den : ℤ))

/-- Value equality of two fractions, by cross-multiplication. -/
def Frac.beq (a b : Frac) : Bool :=
  decide (a.num * (b.den : ℤ) = b.num * (a.den : ℤ))

/-- `⌊a⌋`, via flooring integer division. -/
def Frac.floor (a : Frac) : ℤ := Int.fdiv a.num (a.den : ℤ)

/-- The rational value of a fraction (for the bridging lemmas). -/
def Frac.val (a : Frac) : ℚ := (a.num : ℚ) / (a.den : ℚ)

/-- Fuel-driven binary logarithm (structural recursion so that it
computes by rewriting; `log2Fuel n n = ⌊log₂ n⌋` for `n ≥ 1`). -/
def log2Fuel : ℕ → ℕ → ℕ
  | 0, _ => 0
  | fuel + 1, n => if 2 ≤ n then log2Fuel fuel (n / 2) + 1 else 0

/-- `⌊log₂ n⌋` for `n ≥ 1` (0 at 0). -/
def natLog2 (n : ℕ) : ℕ := log2Fuel n n

/-- `2 ^ e` for an integer exponent, as a fraction. -/
def pow2F (e : ℤ) : Frac :=
  if 0 ≤ e then ⟨2 ^ e.toNat, 1⟩ else ⟨1, 2 ^ (-e).toNat⟩

/-- `⌊log₂ q⌋` for a positive fraction.  The logarithms of numerator and
denominator give the answer up to one unit, which the comparisons fix. -/
def floorLog2F (q : Frac) : ℤ :=
  let l : ℤ := (natLog2 q.num.toNat : ℤ) - (natLog2 q.den : ℤ)
  if Frac.blt q (pow2F l) then l - 1
  else if Frac.blt q (pow2F (l + 1)) then l
  else l + 1

/-- Round the positive fraction `q` to the nearest integer multiple of
`2 ^ e`, ties to the even multiple, returning that integer. -/
def roundAtUlpF (q : Frac) (e : ℤ) : ℤ :=
  let scaled := Frac.divF q (pow2F e)
  let fl := scaled.floor
  let r : ℤ := scaled.num - fl * (scaled.den : ℤ)
  if 2 * r < (scaled.den : ℤ) then fl
  else if (scaled.den : ℤ) < 2 * r then fl + 1
  else if fl % 2 = 0 then fl else fl + 1

/-- Round a fraction to the nearest binary64 value (round to nearest,
ties to even, 53-bit significand, unbounded exponent).  For every value
in the binary64 normal range this is exactly the IEEE-754 rounding JS
applies to the exact result of an arithmetic operation. -/
def fpRound (q : Frac) : Frac :=
  if q.num = 0 then ⟨0, 1⟩
  else if 0 < q.num then
    let e := floorLog2F q - 52
    Frac.mul (Frac.ofInt (roundAtUlpF q e)) (pow2F e)
  else
    let e := floorLog2F q.neg - 52
    Frac.neg (Frac.mul (Frac.ofInt (roundAtUlpF q.neg e)) (pow2F e))

/-- JS double multiplication: exact product, then binary64 rounding. -/
def fpMul (x y : Frac) : Frac := fpRound (x.mul y)

/-- JS double division: exact quotient, then binary64 rounding. -/
def fpDiv (x y : Frac) : Frac := fpRound (x.divF y)

/-- A decimal numeral with value `m / 10 ^ k` — the shape of the balance
strings the inventory layer feeds into the bundle compiler. -/
structure DecimalNum where
  m : ℕ
  k : ℕ
deriving DecidableEq

/-- Exact value of a decimal numeral. -/
def decValue (d : DecimalNum) : Frac := ⟨(d.m : ℤ), 10 ^ d.k⟩

/-- `Number.parseFloat` on a decimal numeral: the nearest double. -/
def jsParseFloat (d : DecimalNum) : Frac := fpRound (decValue d)

/-! ## Strings, addresses and hex call-data

String primitives are spelled out over the underlying character list so
that every definition computes by rewriting. -/

/-- JS `s.length` (all strings involved are ASCII). -/
def strLen (s : String) : ℕ := s.data.length

/-- JS `s.slice(0, n)`. -/
def strTake (s : String) (n : ℕ) : String := ⟨s.data.take n⟩

/-- JS `s.slice(n)`. -/
def strDrop (s : String) (n : ℕ) : String := ⟨s.data.drop n⟩

/-- Every character satisfies the predicate. -/
def strAll (s : String) (p : Char → Bool) : Bool := s.data.all p

/-- JS `s.startsWith(t)`. -/
def strStartsWith (s t : String) : Bool := List.isPrefixOf t.data s.data

/-- JS `String.prototype.toLowerCase` on ASCII strings. -/
def lowerStr (s : String) : String := ⟨s.data.map Char.toLower⟩

/-- One character of `[0-9a-fA-F]`. -/
def isHexDigitChar (c : Char) : Bool :=
  (('0' ≤ c && c ≤ '9') || ('a' ≤ c && c ≤ 'f') || ('A' ≤ c && c ≤ 'F'))

/-- `isValidEthereumAddress` from the source: the regex
`/^0x[a-fA-F0-9]{40}$/`. -/
def isValidEthereumAddress (s : String) : Bool :=
  strLen s = 42 && strTake s 2 = "0x" && strAll (strDrop s 2) isHexDigitChar

/-- Value of one hex digit (the inputs are hex by construction). -/
def hexVal (c : Char) : ℕ :=
  if '0' ≤ c && c ≤ '9' then c.toNat - '0'.toNat
  else if 'a' ≤ c && c ≤ 'f' then 10 + c.toNat - 'a'.toNat
  else if 'A' ≤ c && c ≤ 'F' then 10 + c.toNat - 'A'.toNat
  else 0

/-- `BigInt("0x" + s)` for a bare hex string `s`. -/
def hexToNat (s : String) : ℕ :=
  s.data.foldl (fun a c => a * 16 + hexVal c) 0

/-- `BigInt(s)` for a `0x`-prefixed hex string `s`. -/
def hexToNat0x (s : String) : ℕ := hexToNat (strDrop s 2)

/-- JS `padStart(64, "0")` on a character list (longer inputs unchanged). -/
def padStart64 (cs : List Char) : List Char :=
  if 64 ≤ cs.length then cs else List.replicate (64 - cs.length) '0' ++ cs

/-- `n.toString(16).padStart(64, "0")`: lowercase hex of a bigint, padded
to one 32-byte ABI word. -/
def toHex64 (n : ℕ) : String :=
  ⟨padStart64 (Nat.toDigits 16 n)⟩

/-- `addr.slice(2).toLowerCase().padStart(64, "0")`: an address as one
ABI word (viem encodes addresses lowercased the same way). -/
def addressWord (addr : String) : String :=
  ⟨padStart64 ((strDrop addr 2).data.map Char.toLower)⟩

/-- ABI encoding of `transfer(to, amount)` — selector `0xa9059cbb`
followed by the padded recipient and the padded amount. -/
def encodeERC20Transfer (toAddr : String) (amount : ℕ) : String :=
  "0xa9059cbb" ++ addressWord toAddr ++ toHex64 amount

/-- ABI encoding of `transferFrom(from, to, tokenId)` — selector
`0x23b872dd` followed by the three padded words. -/
def encodeERC721TransferFrom (fromA toAddr : String) (tokenId : ℕ) : String :=
  "0x23b872dd" ++ addressWord fromA ++ addressWord toAddr ++ toHex64 tokenId

/-! ## Data model of the bundle compiler -/

/-- `Token.type` in the source. -/
inductive TokenType
  | NATIVE
  | ERC20
  | ERC721
deriving DecidableEq

/-- The `Token` interface (balance as a decimal numeral, optional
decimals and token id exactly as in the source). -/
structure Token where
  type : TokenType
  name : String
  symbol : String
  balance : DecimalNum
  decimals : Option ℕ
  tokenId : Option ℕ
  contractAddress : String
deriving DecidableEq

/-- The `EIP7702Transaction` interface (source field `to` is `toAddr`
here, `to` being reserved; `value` is the integer the source's
decimal/hex string denotes). -/
structure EIP7702Transaction where
  toAddr : String
  data : String
  value : ℕ
  gasLimit : Option String
deriving DecidableEq

/-- The `EIP7702Bundle` interface (`totalGasEstimate` as the integer its
string denotes). -/
structure EIP7702Bundle where
  transactions : List EIP7702Transaction
  totalGasEstimate : ℕ

/-- `parseTokenAmount` from `eip7702-bundle.ts`: parse the balance as a
double, guard on `balanceFloat <= 0`, multiply by `Number(10n ** d)` in
double arithmetic, `Math.floor`, convert to bigint. -/
def parseTokenAmount (balance : DecimalNum) (decimals : ℕ) : ℤ :=
  let balanceFloat := jsParseFloat balance
  if balanceFloat.ble (Frac.ofInt 0) then 0
  else (fpMul balanceFloat (fpRound (Frac.ofInt (10 ^ decimals)))).floor

/-- The exact scaling the specification demands for a Fungible balance:
`floor(b × 10^d)` in arbitrary-precision arithmetic. -/
def exactScaledAmount (balance : DecimalNum) (decimals : ℕ) : ℤ :=
  ((decValue balance).mul (Frac.ofInt (10 ^ decimals))).floor

/-- viem `parseEther` on a decimal numeral: exact base-10 scaling to 18
decimals; when the numeral has more than 18 fractional digits the excess
is rounded half-up at the digit level, as viem `parseUnits` does. -/
def parseEtherDec (d : DecimalNum) : ℕ :=
  if d.k ≤ 18 then d.m * 10 ^ (18 - d.k)
  else (d.m + 5 * 10 ^ (d.k - 18 - 1)) / 10 ^ (d.k - 18)

/-- Compilation of one token inside `prepareBundledTransactions`
(`eip7702-bundle.ts`): `none` means the token was skipped by the
zero-balance rule, `error` a thrown invalid-contract-address message. -/
def compileToken (fromAddress toAddress : String) (token : Token) :
    Except String (Option EIP7702Transaction) :=
  match token.type with
  | .NATIVE =>
    if (jsParseFloat token.balance).ble (Frac.ofInt 0) then .ok none
    else .ok (some { toAddr := toAddress, data := "0x",
                     value := parseEtherDec token.balance,
                     gasLimit := some "0x5208" })
  | .ERC20 =>
    if !isValidEthereumAddress token.contractAddress then
      .error ("Invalid contract address for token " ++ token.symbol)
    else if (jsParseFloat token.balance).ble (Frac.ofInt 0) then .ok none
    else
      let amount := (parseTokenAmount token.balance (token.decimals.getD 18)).toNat
      .ok (some { toAddr := token.contractAddress,
                  data := encodeERC20Transfer toAddress amount,
                  value := 0,
                  gasLimit := some "0x15F90" })
  | .ERC721 =>
    if !isValidEthereumAddress token.contractAddress then
      .error ("Invalid contract address for NFT " ++ token.name)
    else
      .ok (some { toAddr := token.contractAddress,
                  data := encodeERC721TransferFrom fromAddress toAddress
                    (token.tokenId.getD 0),
                  value := 0,
                  gasLimit := some "0x1D4C0" })

/-- The per-token loop of `prepareBundledTransactions`. -/
def prepareLoop (fromAddress toAddress : String) :
    List Token → Except String (List EIP7702Transaction)
  | [] => .ok []
  | t :: ts =>
    match compileToken fromAddress toAddress t with
    | .error e => .error e
    | .ok o =>
      match prepareLoop fromAddress toAddress ts with
      | .error e => .error e
      | .ok rest =>
        match o with
        | none => .ok rest
        | some tx => .ok (tx :: rest)

/-- `prepareBundledTransactions` from `eip7702-bundle.ts`: address
presence and format checks, the self-transfer rejection, then the
per-token loop. -/
def prepareBundledTransactions (tokens : List Token)
    (fromAddress toAddress : String) : Except String (List EIP7702Transaction) :=
  if fromAddress = "" || toAddress = "" then
    .error "From and to addresses are required"
  else if !(isValidEthereumAddress fromAddress &&
            isValidEthereumAddress toAddress) then
    .error "Invalid address format"
  else if lowerStr fromAddress = lowerStr toAddress then
    .error "From and to addresses cannot be the same"
  else prepareLoop fromAddress toAddress tokens

/-- Which tokens survive the compiler's skip rule: Native and Fungible
tokens are dropped when their parsed balance is `≤ 0`; NonFungible
tokens are always kept. -/
def keepsToken (t : Token) : Bool :=
  match t.type with
  | .NATIVE => !(jsParseFloat t.balance).ble (Frac.ofInt 0)
  | .ERC20 => !(jsParseFloat t.balance).ble (Frac.ofInt 0)
  | .ERC721 => true

/-- The sub-operation emitted for a kept token. -/
def emitToken (fromAddress toAddress : String) (t : Token) : EIP7702Transaction :=
  match t.type with
  | .NATIVE =>
    { toAddr := toAddress, data := "0x", value := parseEtherDec t.balance,
      gasLimit := some "0x5208" }
  | .ERC20 =>
    { toAddr := t.contractAddress,
      data := encodeERC20Transfer toAddress
        ((parseTokenAmount t.balance (t.decimals.getD 18)).toNat),
      value := 0, gasLimit := some "0x15F90" }
  | .ERC721 =>
    { toAddr := t.contractAddress,
      data := encodeERC721TransferFrom fromAddress toAddress (t.tokenId.getD 0),
      value := 0, gasLimit := some "0x1D4C0" }

/-- Compiler output for one token as an optional sub-operation. -/
def emitOpt (fromAddress toAddress : String) (t : Token) :
    Option EIP7702Transaction :=
  if keepsToken t then some (emitToken fromAddress toAddress t) else none

/-! ## Execution engine model

External interactions (wallet provider, chain RPC) are an explicit
environment.  Stateful methods return the ordered list of on-chain write
effects they performed together with their result; a thrown JS `Error`
is an `Except.error` carrying the thrown message. -/

/-- Outcome of one submitted transaction: the submission request itself
erred (rejected / RPC failure), or it was mined with a hash and a
receipt status. -/
inductive TxOutcome
  | sendError (msg : String)
  | mined (hash : String) (success : Bool)
deriving DecidableEq

/-- The transaction was mined with a successful receipt. -/
def TxOutcome.isSuccess : TxOutcome → Bool
  | .mined _ true => true
  | _ => false

/-- One on-chain write performed by the engine, tagged with the chain id
the wallet was on when the write was requested. -/
inductive Effect
  | approveERC20 (chain : ℕ) (token : String) (amount : ℕ)
  | approveERC721 (chain : ℕ) (token : String) (tokenId : ℕ)
  | submitBatch (chain : ℕ) (contract : String) (targets : List String)
      (values : List ℕ) (calldatas : List String)
  | sendTx (chain : ℕ) (toAddr : String) (data : String) (value : ℕ)
deriving DecidableEq

/-- The chain a write effect was requested on. -/
def Effect.chain : Effect → ℕ
  | .approveERC20 c _ _ => c
  | .approveERC721 c _ _ => c
  | .submitBatch c _ _ _ _ => c
  | .sendTx c _ _ _ => c

/-- The external world as the engine observes it: the wallet-reported
chain id, whether each network-switch strategy actually moves the
wallet, the connected account, chain reads (allowance, getApproved),
transaction outcomes and the gas-price / gas-estimate oracles. -/
structure Env where
  chainId : ℕ
  standardSwitchOk : Bool
  isAmbire : Bool
  ambireSwitchOk : Bool
  addChainOk : Bool
  account : String
  allowance : String → String → String → ℕ
  approveOk : Bool
  getApproved : String → ℕ → String
  txOutcome : ℕ → TxOutcome
  batchOutcome : TxOutcome
  viemGasPrice : Except String ℤ
  ethereumGasPrice : Except String ℤ
  rpcGasPrice : List (Except String ℤ)
  gasEstimate : ℕ → Except String ℕ

/-- Mutable fields of `EIP7702BundleManager` relevant to execution. -/
structure ManagerState where
  targetChainId : Option ℕ
  currentChainId : Option ℕ

/-- `PECTRA_BUNDLE_CONTRACTS`: the static per-chain table of atomic
bundle contract addresses. -/
def PECTRA_BUNDLE_CONTRACTS : ℕ → Option String
  | 1 => some "0x9eCc1Ae7B614e6d63Ddc193070a2a53ADf9fE455"
  | 11155111 => some "0xB2491C3c204E9bC257FEb9Fb6A44c3706efa5A19"
  | _ => none

/-- The `NETWORKS` table: chain name when the chain is known. -/
def networkName : ℕ → Option String
  | 1 => some "Ethereum"
  | 11155111 => some "Sepolia"
  | _ => none

/-- Result of `checkEIP7702Support`. -/
structure SupportInfo where
  supported : Bool
  contractAddress : Option String
  chainId : Option ℕ
deriving DecidableEq

/-- `checkEIP7702Support`: read the wallet chain id fresh, look the chain
up in the static contract table.  (The source also rebinds its viem
clients to the fresh chain; that mutation does not influence the result
and is omitted.  The wallet is assumed connected — the disconnected
branch degrades to `supported = false`.) -/
def checkEIP7702Support (env : Env) : SupportInfo :=
  match PECTRA_BUNDLE_CONTRACTS env.chainId, networkName env.chainId with
  | some c, some _ => ⟨true, some c, some env.chainId⟩
  | _, _ => ⟨false, none, some env.chainId⟩

/-- `ensureCorrectNetwork`: already on target, else try the standard
switch, the Ambire-specific switch (Ambire wallets only), then
add-chain-and-switch (parameters only defined for Sepolia); each attempt
is verified by re-reading the chain id.  Returns whether the wallet
ended on the target chain, plus the updated wallet state. -/
def ensureCorrectNetwork (env : Env) (target : ℕ) : Bool × Env :=
  if env.chainId = target then (true, env)
  else if env.standardSwitchOk then (true, { env with chainId := target })
  else if env.isAmbire && env.ambireSwitchOk then
    (true, { env with chainId := target })
  else if target = 11155111 && env.addChainOk then
    (true, { env with chainId := target })
  else (false, env)

/-- `checkAndApproveERC20`: read the current allowance; when it already
covers the amount return with no write, otherwise submit an `approve`
and wait for it (a rejected/failed approval throws the wrapped message
without a completed write). -/
def checkAndApproveERC20 (env : Env) (tokenAddress ownerAddress : String)
    (amount : ℕ) (pectraContract : String) : List Effect × Except String Bool :=
  if amount ≤ env.allowance tokenAddress ownerAddress pectraContract then
    ([], .ok true)
  else if env.approveOk then
    ([.approveERC20 env.chainId tokenAddress amount], .ok true)
  else
    ([], .error ("Failed to approve token " ++ tokenAddress))

/-- `checkAndApproveERC721`: read `getApproved(tokenId)`; when it already
equals the bundle contract (case-insensitively) return with no write,
otherwise submit an `approve` for the token id. -/
def checkAndApproveERC721 (env : Env) (tokenAddress ownerAddress : String)
    (tokenId : ℕ) (pectraContract : String) : List Effect × Except String Bool :=
  if lowerStr (env.getApproved tokenAddress tokenId) = lowerStr pectraContract then
    ([], .ok true)
  else if env.approveOk then
    ([.approveERC721 env.chainId tokenAddress tokenId], .ok true)
  else
    ([], .error ("Failed to approve NFT " ++ tokenAddress))

/-- The pre-flight allowance loop of `executeEIP7702Bundle`: for every
ERC-20 `transfer` sub-operation re-decode the amount from the call-data
and ensure the allowance; for every ERC-721 `transferFrom` re-decode the
token id and ensure the approval; skip plain value transfers. -/
def approvalPhase (env : Env) (account pectraContract : String) :
    List EIP7702Transaction → List Effect × Except String Unit
  | [] => ([], .ok ())
  | tx :: rest =>
    if tx.data = "0x" || tx.data = "" then
      approvalPhase env account pectraContract rest
    else if strStartsWith tx.data "0xa9059cbb" then
      match checkAndApproveERC20 env tx.toAddr account
          (hexToNat (strDrop (strDrop tx.data 10) 64)) pectraContract with
      | (effs, .error m) => (effs, .error m)
      | (effs, .ok _) =>
        (effs ++ (approvalPhase env account pectraContract rest).1,
          (approvalPhase env account pectraContract rest).2)
    else if strStartsWith tx.data "0x23b872dd" then
      match checkAndApproveERC721 env tx.toAddr account
          (hexToNat (strDrop (strDrop tx.data 10) 128)) pectraContract with
      | (effs, .error m) => (effs, .error m)
      | (effs, .ok _) =>
        (effs ++ (approvalPhase env account pectraContract rest).1,
          (approvalPhase env account pectraContract rest).2)
    else
      approvalPhase env account pectraContract rest

/-- Message thrown by the sequential loop at a failed index (source
template string, 1-based index). -/
def seqFailMsg (i : ℕ) (m : String) : String :=
  "Transaction " ++ Nat.repr (i + 1) ++ " failed: " ++ m

/-- Message for a mined-but-reverted sequential transaction. -/
def onChainFailMsg (i : ℕ) : String :=
  "Transaction " ++ Nat.repr (i + 1) ++
    " failed on-chain. Check the transaction on the block explorer for more details."

/-- The per-transaction loop of `executeBatchTransactions`: send, record
the hash, wait for the receipt; a send error or a failed receipt aborts
the loop by rethrowing with the 1-based index. -/
def runSequential (env : Env) (chain : ℕ) :
    List EIP7702Transaction → ℕ → List String →
    List Effect × Except String (List String)
  | [], _, hashes => ([], .ok hashes)
  | tx :: rest, i, hashes =>
    let eff := Effect.sendTx chain tx.toAddr tx.data tx.value
    match env.txOutcome i with
    | .sendError m => ([eff], .error (seqFailMsg i m))
    | .mined h success =>
      if success then
        let r := runSequential env chain rest (i + 1) (hashes ++ [h])
        (eff :: r.1, r.2)
      else
        ([eff], .error (seqFailMsg i (onChainFailMsg i)))

/-- The manual-switch message of the sequential path. -/
def manualSwitchMsgSeq (chainId : ℕ) : String :=
  let nm := if chainId = 11155111 then "Sepolia"
            else "Chain ID " ++ Nat.repr chainId
  "Please manually switch to " ++ nm ++ " in your wallet before proceeding."

/-- `executeBatchTransactions` (sequential fallback): resolve the target
chain, ensure the wallet is on it, then run the transactions one by one;
on success the source returns the first hash. -/
def executeBatchTransactions (env : Env) (st : ManagerState)
    (txs : List EIP7702Transaction) : List Effect × Except String String :=
  let chainId := st.targetChainId.getD (st.currentChainId.getD 11155111)
  match ensureCorrectNetwork env chainId with
  | (false, _) => ([], .error (manualSwitchMsgSeq chainId))
  | (true, env2) =>
    let r := runSequential env2 env2.chainId txs 0 []
    match r.2 with
    | .error m => (r.1, .error m)
    | .ok hashes => (r.1, .ok (hashes.headD "undefined"))

/-- The manual-switch message of the atomic path (before wrapping). -/
def manualSwitchMsgAtomic (chainId : ℕ) : String :=
  let nm := (networkName chainId).getD ("Chain ID " ++ Nat.repr chainId)
  "Please manually switch to " ++ nm ++ " in your wallet before proceeding."

/-- The verification-failed message of the atomic path (before wrapping). -/
def switchVerifyMsg (expected got : ℕ) : String :=
  let nm := (networkName expected).getD ("Chain ID " ++ Nat.repr expected)
  "Network switch verification failed. Expected chain " ++ Nat.repr expected ++
    ", but got " ++ Nat.repr got ++ ". Please manually switch to " ++ nm ++
    " in your wallet."

/-- The catch-all wrapper of `executeEIP7702Bundle`: every error thrown
inside its `try` block is rethrown with this template. -/
def bundleFailMsg (m : String) : String :=
  "Transaction failed: " ++ m ++ ". Please check your wallet balance and try again."

/-- `executeEIP7702Bundle`: re-check EIP-7702 support (fresh chain-id
read); unsupported chains fall back to the sequential path.  Otherwise
resolve the target chain (`targetChainId || supportInfo.chainId`), force
the wallet onto it, verify by re-reading the chain id, run the allowance
pre-flight, then submit one `executeBatch` call to the bundle contract
and require a successful receipt.  Every failure inside the `try` block
surfaces through `bundleFailMsg`. -/
def executeEIP7702Bundle (env : Env) (st : ManagerState)
    (bundle : EIP7702Bundle) : List Effect × Except String String :=
  let info := checkEIP7702Support env
  match info.supported, info.contractAddress, info.chainId with
  | true, some pectraContract, some cid =>
    let chainId := st.targetChainId.getD cid
    match ensureCorrectNetwork env chainId with
    | (false, _) => ([], .error (bundleFailMsg (manualSwitchMsgAtomic chainId)))
    | (true, env2) =>
      if env2.chainId ≠ chainId then
        ([], .error (bundleFailMsg (switchVerifyMsg chainId env2.chainId)))
      else
        let appr := approvalPhase env2 env2.account pectraContract bundle.transactions
        match appr.2 with
        | .error m => (appr.1, .error (bundleFailMsg m))
        | .ok _ =>
          let targets := bundle.transactions.map (·.toAddr)
          let values := bundle.transactions.map (·.value)
          let calldatas := bundle.transactions.map (·.data)
          let eff := Effect.submitBatch env2.chainId pectraContract targets values calldatas
          match env.batchOutcome with
          | .sendError m => (appr.1 ++ [eff], .error (bundleFailMsg m))
          | .mined h success =>
            if success then (appr.1 ++ [eff], .ok h)
            else
              (appr.1 ++ [eff], .error (bundleFailMsg
                "Transaction failed on-chain. Check the transaction on the block explorer for more details."))
  | _, _, _ => executeBatchTransactions env st bundle.transactions

/-! ## Cost estimator model -/

/-- The RPC-endpoint loop of `getGasPriceFromMultipleRPCs`: first
successful endpoint wins; all failing throws. -/
def rpcLoop : List (Except String ℤ) → Except String ℤ
  | [] => .error "All RPC endpoints failed"
  | .ok g :: _ => .ok g
  | .error _ :: rest => rpcLoop rest

/-- The method loop of `getCurrentGasPrice`: first tier that returns a
positive price wins; a thrown tier is skipped. -/
def firstPositive : List (Except String ℤ) → Option ℤ
  | [] => none
  | .ok g :: rest => if 0 < g then some g else firstPositive rest
  | .error _ :: rest => firstPositive rest

/-- `getCurrentGasPrice` (`eip7702-bundle.ts`): try the viem public
client, then the wallet-injected provider, then the raw RPC endpoints;
when every tier fails return the hard-coded 20 gwei default.  The
function itself never throws. -/
def getCurrentGasPrice (env : Env) : ℤ :=
  (firstPositive
    [env.viemGasPrice, env.ethereumGasPrice, rpcLoop env.rpcGasPrice]).getD
    20000000000

/-- Six-digit zero-padding for the fractional part of `toFixed(6)`. -/
def pad6 (s : String) : String :=
  ⟨List.replicate (6 - s.data.length) '0' ++ s.data⟩

/-- JS `toFixed(6)` on a non-negative double value: the integer `n`
closest to `q × 10^6` (ties to the larger), rendered with six decimals.
`⌊q·10^6 + 1/2⌋ = ⌊(2·10^6·num + den) / (2·den)⌋`. -/
def jsToFixed6 (q : Frac) : String :=
  let n := (Int.fdiv (2000000 * q.num + (q.den : ℤ)) (2 * (q.den : ℤ))).toNat
  Nat.repr (n / 1000000) ++ "." ++ pad6 (Nat.repr (n % 1000000))

/-- `calculateEstimatedCost`: gas times gas price in bigint, converted to
a double, divided by `10^18` (`Math.pow(10, 18)` is exactly `10^18` in
binary64) in double arithmetic, rendered with `toFixed(6)`.  The `catch`
branch returning `"0.001000"` is unreachable because
`getCurrentGasPrice` never throws. -/
def calculateEstimatedCost (env : Env) (totalGas : ℤ) : String :=
  let gasPrice := getCurrentGasPrice env
  let totalCostWei := totalGas * gasPrice
  jsToFixed6 (fpDiv (fpRound (Frac.ofInt totalCostWei)) (Frac.ofInt (10 ^ 18)))

/-! ## Network-aware (Tier A) gas estimator from `sign-auth.tsx` -/

/-- The per-transaction accumulation loop of the network-aware
`estimateGasForBundle`: query `eth_estimateGas` per transaction; on
failure substitute `BigInt(tx.gasLimit || "0x5208")`, the per-kind gas
hint the compiler attached. -/
def estimateGasLoop (env : Env) : List EIP7702Transaction → ℕ → ℕ
  | [], _ => 0
  | tx :: rest, i =>
    (match env.gasEstimate i with
     | .ok g => g
     | .error _ => hexToNat0x (tx.gasLimit.getD "0x5208")) +
      estimateGasLoop env rest (i + 1)

/-- `estimateGasForBundle` (`sign-auth.tsx`, network-aware variant): sum
the per-transaction estimates, then apply the fixed 5% safety margin to
the sum. -/
def signAuthEstimateGasForBundle (env : Env)
    (txs : List EIP7702Transaction) : ℕ :=
  estimateGasLoop env txs 0 * 105 / 100

/-- The gas charged for position `(i, tx)`: the chain estimate when the
query succeeded, else the hard-coded per-kind fallback. -/
def resolvedGas (env : Env) (p : ℕ × EIP7702Transaction) : ℕ :=
  match env.gasEstimate p.1 with
  | .ok g => g
  | .error _ => hexToNat0x (p.2.gasLimit.getD "0x5208")

/-- The successful chain estimate for index `i` (zero when absent; only
used under the hypothesis that the query succeeded). -/
def queriedGas (env : Env) (i : ℕ) : ℕ :=
  match env.gasEstimate i with
  | .ok g => g
  | .error _ => 0

/-! ## Concrete inputs used by witnesses and counterexamples -/

/-- A valid owner address. -/
def addrOwner : String := "0x1111111111111111111111111111111111111111"

/-- A valid recipient address. -/
def addrRecip : String := "0x2222222222222222222222222222222222222222"

/-- A valid ERC-20 contract address. -/
def addrToken : String := "0x4444444444444444444444444444444444444444"

/-- A valid ERC-721 contract address. -/
def addrNFT : String := "0x3333333333333333333333333333333333333333"

/-- A mixed-case valid address. -/
def addrMixedCase : String := "0xAbCd111111111111111111111111111111111111"

/-- The same address with every letter lowercased. -/
def addrMixedLower : String := "0xabcd111111111111111111111111111111111111"

/-- The Sepolia bundle contract address from the static table. -/
def pectraSepolia : String := "0xB2491C3c204E9bC257FEb9Fb6A44c3706efa5A19"

/-- An ERC-20 token with balance `2.5` and 6 decimals. -/
def tokERC20Pos : Token := ⟨.ERC20, "Tok", "TOK", ⟨25, 1⟩, some 6, none, addrToken⟩

/-- An ERC-20 token with balance `0`. -/
def tokERC20Zero : Token := ⟨.ERC20, "Zed", "ZED", ⟨0, 0⟩, some 6, none, addrToken⟩

/-- A native token with balance `1.0`. -/
def tokNative : Token :=
  ⟨.NATIVE, "Ether", "ETH", ⟨10, 1⟩, some 18, none,
    "0x0000000000000000000000000000000000000000"⟩

/-- An ERC-721 token whose balance field is `0` (token id 5). -/
def nftZeroBalance : Token := ⟨.ERC721, "ZeroNFT", "ZNFT", ⟨0, 0⟩, none, some 5, addrNFT⟩

/-- An ERC-721 token with no token id field. -/
def nftNoId : Token := ⟨.ERC721, "NoId", "NID", ⟨0, 0⟩, none, none, addrNFT⟩

/-- A baseline environment: wallet on Sepolia, no switch strategy works,
all gas-price tiers down, allowances empty. -/
def baseEnv : Env :=
  { chainId := 11155111
    standardSwitchOk := false
    isAmbire := false
    ambireSwitchOk := false
    addChainOk := false
    account := addrOwner
    allowance := fun _ _ _ => 0
    approveOk := true
    getApproved := fun _ _ => "0x0000000000000000000000000000000000000000"
    txOutcome := fun _ => .mined "0x1111" true
    batchOutcome := .mined "0xabc123" true
    viemGasPrice := .error "viem down"
    ethereumGasPrice := .error "provider down"
    rpcGasPrice := [.error "rpc down"]
    gasEstimate := fun _ => .error "estimator down" }

/-- Manager state after a Sepolia preview: target chain 11155111. -/
def stExec : ManagerState := ⟨some 11155111, some 11155111⟩

/-- The wallet as the preview saw it: on Sepolia. -/
def previewEnv : Env := baseEnv

/-- The wallet silently moved to mainnet and refuses every switch. -/
def envWrongStay : Env := { baseEnv with chainId := 1 }

/-- The wallet silently moved to mainnet but honours a switch request. -/
def envWrongSwitch : Env := { baseEnv with chainId := 1, standardSwitchOk := true }

/-- A bundle with no transactions. -/
def emptyBundle : EIP7702Bundle := ⟨[], 21000⟩

/-- Three plain value-transfer sub-operations. -/
def txSeq1 : EIP7702Transaction := ⟨addrRecip, "0x", 1000, some "0x5208"⟩

/-- Second sequential sub-operation. -/
def txSeq2 : EIP7702Transaction := ⟨addrRecip, "0x", 2000, some "0x5208"⟩

/-- Third sequential sub-operation. -/
def txSeq3 : EIP7702Transaction := ⟨addrRecip, "0x", 3000, some "0x5208"⟩

/-- Sequential outcomes: first succeeds with hash `0xaaa1`, second
reverts, third would succeed. -/
def seqOutcomesA : ℕ → TxOutcome := fun i =>
  if i = 0 then .mined "0xaaa1" true
  else if i = 1 then .mined "0xcc22" false
  else .mined "0xdd33" true

/-- Same as `seqOutcomesA` except the first hash is `0xbbb2`. -/
def seqOutcomesB : ℕ → TxOutcome := fun i =>
  if i = 0 then .mined "0xbbb2" true
  else if i = 1 then .mined "0xcc22" false
  else .mined "0xdd33" true

/-- Environment whose sequential run fails at index 1, first hash `0xaaa1`. -/
def envSeqA : Env := { baseEnv with txOutcome := seqOutcomesA }

/-- Environment whose sequential run fails at index 1, first hash `0xbbb2`. -/
def envSeqB : Env := { baseEnv with txOutcome := seqOutcomesB }

/-- Environment with a generous pre-existing allowance and the bundle
contract already approved (in different letter case) for every NFT. -/
def envAllow : Env :=
  { baseEnv with
    allowance := fun _ _ _ => 100
    getApproved := fun _ _ => "0xb2491c3c204e9bc257feb9fb6a44c3706efa5a19" }

/-- Environment whose gas estimator answers every query with 30000. -/
def envGasOk : Env := { baseEnv with gasEstimate := fun _ => .ok 30000 }

/-- A one-transaction bundle. -/
def someBundle : EIP7702Bundle := ⟨[txSeq1], 50000⟩

/-! ## Shared lemmas -/

/-- A syntactically valid address is nonempty. -/
theorem valid_ne_empty {s : String} (h : isValidEthereumAddress s = true) :
    s ≠ "" := by
  intro he
  subst he
  exact absurd h (by decide)

/-- With valid, case-insensitively distinct addresses the compiler guard
block passes and compilation reduces to the per-token loop. -/
theorem prepare_guards (tokens : List Token) (f t : String)
    (hf : isValidEthereumAddress f = true) (ht : isValidEthereumAddress t = true)
    (hne : lowerStr f ≠ lowerStr t) :
    prepareBundledTransactions tokens f t = prepareLoop f t tokens := by
  have hf0 : f ≠ "" := valid_ne_empty hf
  have ht0 : t ≠ "" := valid_ne_empty ht
  unfold prepareBundledTransactions
  rw [if_neg (by simp [hf0, ht0]), if_neg (by simp [hf, ht]), if_neg hne]

/-- The per-token loop is exactly a stable `filterMap` over the input
selection when every non-native token has a valid contract address. -/
theorem prepareLoop_eq_filterMap (f t : String) :
    ∀ tokens : List Token,
    (∀ tk ∈ tokens, tk.type ≠ TokenType.NATIVE →
      isValidEthereumAddress tk.contractAddress = true) →
    prepareLoop f t tokens = .ok (tokens.filterMap (emitOpt f t))
  | [], _ => rfl
  | tk :: ts, h => by
    have hts : ∀ x ∈ ts, x.type ≠ TokenType.NATIVE →
        isValidEthereumAddress x.contractAddress = true :=
      fun x hx => h x (List.mem_cons_of_mem _ hx)
    have ih := prepareLoop_eq_filterMap f t ts hts
    cases htype : tk.type with
    | NATIVE =>
      by_cases hb : (jsParseFloat tk.balance).ble (Frac.ofInt 0) = true
      · simp [prepareLoop, compileToken, htype, hb, ih, List.filterMap_cons,
          emitOpt, keepsToken, emitToken]
      · simp only [Bool.not_eq_true] at hb
        simp [prepareLoop, compileToken, htype, hb, ih, List.filterMap_cons,
          emitOpt, keepsToken, emitToken]
    | ERC20 =>
      have hv : isValidEthereumAddress tk.contractAddress = true :=
        h tk (List.mem_cons_self _ _) (by simp [htype])
      by_cases hb : (jsParseFloat tk.balance).ble (Frac.ofInt 0) = true
      · simp [prepareLoop, compileToken, htype, hv, hb, ih, List.filterMap_cons,
          emitOpt, keepsToken, emitToken]
      · simp only [Bool.not_eq_true] at hb
        simp [prepareLoop, compileToken, htype, hv, hb, ih, List.filterMap_cons,
          emitOpt, keepsToken, emitToken]
    | ERC721 =>
      have hv : isValidEthereumAddress tk.contractAddress = true :=
        h tk (List.mem_cons_self _ _) (by simp [htype])
      simp [prepareLoop, compileToken, htype, hv, ih, List.filterMap_cons,
        emitOpt, keepsToken, emitToken]

/-! ## Claim theorems -/

/-- Claim C1 (code bug, failing input): for the Fungible balance
`"1.000000000000000001"` with 18 decimals, the compiled amount is
`10^18` — `parseFloat` collapses the balance to the double `1.0` before
scaling — although `floor(b × 10^d)` is `10^18 + 1`; the emitted
call-data carries the drifted amount and re-decoding recovers exactly
that drifted integer, so the emitted amount differs from the
arbitrary-precision result the specification demands. -/
theorem parseTokenAmount_float_drift :
    parseTokenAmount ⟨1000000000000000001, 18⟩ 18 = 1000000000000000000
    ∧ exactScaledAmount ⟨1000000000000000001, 18⟩ 18 = 1000000000000000001
    ∧ parseTokenAmount ⟨1000000000000000001, 18⟩ 18 ≠
        exactScaledAmount ⟨1000000000000000001, 18⟩ 18
    ∧ prepareBundledTransactions
        [⟨.ERC20, "Tok", "TOK", ⟨1000000000000000001, 18⟩, some 18, none, addrToken⟩]
        addrOwner addrRecip
        = .ok [⟨addrToken, encodeERC20Transfer addrRecip 1000000000000000000, 0,
                 some "0x15F90"⟩]
    ∧ hexToNat (strDrop (strDrop (encodeERC20Transfer addrRecip 1000000000000000000) 10) 64)
        = 1000000000000000000 :=
  ⟨by decide, by decide, by decide, rfl, by decide⟩

/-- Claim C5: for every asset list and valid addresses that are
case-insensitively equal, compilation always throws the self-transfer
error, before any sub-operation is produced. -/
theorem compile_self_transfer_rejected (tokens : List Token) (f t : String)
    (hf : isValidEthereumAddress f = true) (ht : isValidEthereumAddress t = true)
    (heq : lowerStr f = lowerStr t) :
    prepareBundledTransactions tokens f t =
      .error "From and to addresses cannot be the same" := by
  have hf0 : f ≠ "" := valid_ne_empty hf
  have ht0 : t ≠ "" := valid_ne_empty ht
  unfold prepareBundledTransactions
  rw [if_neg (by simp [hf0, ht0]), if_neg (by simp [hf, ht]), if_pos heq]

/-- Witness for C5: a concrete mixed-case self-transfer is rejected with
the self-transfer error for a nonempty asset list. -/
theorem compile_self_transfer_rejected_witness :
    prepareBundledTransactions [tokERC20Pos] addrMixedCase addrMixedLower =
      .error "From and to addresses cannot be the same" :=
  compile_self_transfer_rejected [tokERC20Pos] addrMixedCase addrMixedLower
    (by decide) (by decide) (by decide)

/-- Claim C7 (counterexample): compiling an empty selection does not
throw any error — it succeeds with an empty sub-operation list, so no
`EmptySelection` error exists. -/
theorem compile_empty_selection_counterexample :
    prepareBundledTransactions [] addrOwner addrRecip = .ok [] := rfl

/-- Claim C7 (amended): for every pair of valid, case-insensitively
distinct addresses, compiling the empty selection succeeds and returns
the empty sub-operation list instead of throwing a typed error. -/
theorem compile_empty_selection_succeeds (f t : String)
    (hf : isValidEthereumAddress f = true) (ht : isValidEthereumAddress t = true)
    (hne : lowerStr f ≠ lowerStr t) :
    prepareBundledTransactions [] f t = .ok [] := by
  rw [prepare_guards [] f t hf ht hne]
  rfl

/-- Witness for the amended C7 at concrete addresses. -/
theorem compile_empty_selection_succeeds_witness :
    prepareBundledTransactions [] addrMixedCase addrRecip = .ok [] :=
  compile_empty_selection_succeeds addrMixedCase addrRecip
    (by decide) (by decide) (by decide)

/-- Claim C6 (counterexample): an ERC-721 asset whose balance field is
`0` (so `balance ≤ 0`) still gets a sub-operation emitted for it — the
zero-balance skip does not apply to NonFungible assets, so the output is
not the input minus the zero-balance assets. -/
theorem compile_zero_balance_nft_counterexample :
    (decValue nftZeroBalance.balance).ble (Frac.ofInt 0) = true
    ∧ prepareBundledTransactions [nftZeroBalance] addrOwner addrRecip
        = .ok [⟨addrNFT, encodeERC721TransferFrom addrOwner addrRecip 5, 0,
                 some "0x1D4C0"⟩] :=
  ⟨by decide, rfl⟩

/-- Claim C6 (amended): with valid, case-insensitively distinct
addresses and valid contract addresses on every non-native token,
compilation succeeds and the output is exactly the stable in-order
`filterMap` of the input: Native and Fungible assets whose parsed
balance is `≤ 0` are removed (and nothing else is), while NonFungible
assets are always compiled regardless of balance. -/
theorem compile_order_and_skip (tokens : List Token) (f t : String)
    (hf : isValidEthereumAddress f = true) (ht : isValidEthereumAddress t = true)
    (hne : lowerStr f ≠ lowerStr t)
    (hc : ∀ tk ∈ tokens, tk.type ≠ TokenType.NATIVE →
      isValidEthereumAddress tk.contractAddress = true) :
    prepareBundledTransactions tokens f t = .ok (tokens.filterMap (emitOpt f t))
    ∧ (∀ tk, tk.type ≠ TokenType.ERC721 →
        (jsParseFloat tk.balance).ble (Frac.ofInt 0) = true → emitOpt f t tk = none)
    ∧ (∀ tk, tk.type = TokenType.ERC721 →
        emitOpt f t tk = some (emitToken f t tk)) := by
  refine ⟨?_, ?_, ?_⟩
  · rw [prepare_guards tokens f t hf ht hne]
    exact prepareLoop_eq_filterMap f t tokens hc
  · intro tk hty hb
    cases htype : tk.type with
    | NATIVE => simp [emitOpt, keepsToken, htype, hb]
    | ERC20 => simp [emitOpt, keepsToken, htype, hb]
    | ERC721 => exact absurd htype hty
  · intro tk hty
    simp [emitOpt, keepsToken, hty]

/-- Witness for the amended C6: a four-token selection (positive native,
zero fungible, positive fungible, zero-balance NFT) compiles to the
in-order `filterMap`, which keeps three sub-operations and drops exactly
the zero-balance fungible. -/
theorem compile_order_and_skip_witness :
    prepareBundledTransactions [tokNative, tokERC20Zero, tokERC20Pos, nftZeroBalance]
        addrOwner addrRecip
      = .ok ([tokNative, tokERC20Zero, tokERC20Pos, nftZeroBalance].filterMap
          (emitOpt addrOwner addrRecip))
    ∧ ([tokNative, tokERC20Zero, tokERC20Pos, nftZeroBalance].filterMap
        (emitOpt addrOwner addrRecip)).length = 3 :=
  ⟨(compile_order_and_skip _ addrOwner addrRecip (by decide) (by decide) (by decide)
      (by decide)).1,
    by decide⟩

/-- Claim C10: a NonFungible token with a valid contract address is
always compiled to a `transferFrom` sub-operation, whatever its balance
field holds, and an absent token id is encoded as token id `0`. -/
theorem compile_nft_regardless_of_balance (f t nm sym : String) (bal : DecimalNum)
    (dec : Option ℕ) (tid : Option ℕ) (caddr : String)
    (hf : isValidEthereumAddress f = true) (ht : isValidEthereumAddress t = true)
    (hne : lowerStr f ≠ lowerStr t)
    (hcv : isValidEthereumAddress caddr = true) :
    prepareBundledTransactions [⟨.ERC721, nm, sym, bal, dec, tid, caddr⟩] f t
      = .ok [⟨caddr, encodeERC721TransferFrom f t (tid.getD 0), 0, some "0x1D4C0"⟩]
    ∧ (tid = none →
        prepareBundledTransactions [⟨.ERC721, nm, sym, bal, dec, tid, caddr⟩] f t
          = .ok [⟨caddr, encodeERC721TransferFrom f t 0, 0, some "0x1D4C0"⟩]) := by
  have h1 : prepareBundledTransactions [⟨.ERC721, nm, sym, bal, dec, tid, caddr⟩] f t
      = .ok [⟨caddr, encodeERC721TransferFrom f t (tid.getD 0), 0, some "0x1D4C0"⟩] := by
    rw [prepare_guards _ f t hf ht hne]
    simp [prepareLoop, compileToken, hcv]
  exact ⟨h1, fun hnone => by rw [h1, hnone]; rfl⟩

/-- Witness for C10: a concrete NFT with balance field `0` and no token
id compiles to a `transferFrom` of token id `0`. -/
theorem compile_nft_regardless_of_balance_witness :
    prepareBundledTransactions [nftNoId] addrOwner addrRecip
      = .ok [⟨addrNFT, encodeERC721TransferFrom addrOwner addrRecip 0, 0,
               some "0x1D4C0"⟩] :=
  (compile_nft_regardless_of_balance addrOwner addrRecip "NoId" "NID" ⟨0, 0⟩
      none none addrNFT (by decide) (by decide) (by decide) (by decide)).2 rfl

/-- Claim C4: the pre-flight allowance/approval checks are idempotent —
when the current ERC-20 allowance already covers the required amount, or
the ERC-721 approval already names the bundle contract
(case-insensitively), the check performs no approval write and succeeds
immediately, so re-running execute in that state submits no new
approval transaction. -/
theorem approval_checks_idempotent :
    (∀ (env : Env) (tokenAddress ownerAddress : String) (amount : ℕ)
        (pectraContract : String),
      amount ≤ env.allowance tokenAddress ownerAddress pectraContract →
      checkAndApproveERC20 env tokenAddress ownerAddress amount pectraContract
        = ([], .ok true))
    ∧ (∀ (env : Env) (tokenAddress ownerAddress : String) (tokenId : ℕ)
        (pectraContract : String),
      lowerStr (env.getApproved tokenAddress tokenId) = lowerStr pectraContract →
      checkAndApproveERC721 env tokenAddress ownerAddress tokenId pectraContract
        = ([], .ok true)) :=
  ⟨fun env tokenAddress ownerAddress amount pectraContract h => by
      unfold checkAndApproveERC20
      rw [if_pos h],
    fun env tokenAddress ownerAddress tokenId pectraContract h => by
      unfold checkAndApproveERC721
      rw [if_pos h]⟩

/-- Witness for C4: with allowance 100 against a required 50 and an
already-approved (differently cased) operator, neither check emits an
approval write. -/
theorem approval_checks_idempotent_witness :
    checkAndApproveERC20 envAllow addrToken addrOwner 50 pectraSepolia
      = ([], .ok true)
    ∧ checkAndApproveERC721 envAllow addrNFT addrOwner 7 pectraSepolia
      = ([], .ok true) :=
  ⟨approval_checks_idempotent.1 envAllow addrToken addrOwner 50 pectraSepolia
      (by decide),
    approval_checks_idempotent.2 envAllow addrNFT addrOwner 7 pectraSepolia
      (by decide)⟩

/-- If every endpoint in the RPC list fails, the RPC loop throws. -/
theorem rpcLoop_all_fail :
    ∀ rs : List (Except String ℤ), (∀ r ∈ rs, r.isOk = false) →
    ∃ m, rpcLoop rs = .error m
  | [], _ => ⟨"All RPC endpoints failed", rfl⟩
  | .ok g :: rest, h => by
    have hok := h (.ok g) (List.mem_cons_self _ _)
    simp [Except.isOk, Except.toBool] at hok
  | .error m :: rest, h =>
    rpcLoop_all_fail rest (fun r hr => h r (List.mem_cons_of_mem _ hr))

/-- Claim C8: the cost estimator never throws — when the viem tier, the
wallet-provider tier and every raw RPC endpoint all fail, the gas price
bottoms out at the hard-coded 20 gwei default and the cost calculation
still returns a definite string computed from that default. -/
theorem estimator_never_throws (env : Env) (totalGas : ℤ)
    (hv : env.viemGasPrice.isOk = false)
    (he : env.ethereumGasPrice.isOk = false)
    (hr : ∀ r ∈ env.rpcGasPrice, r.isOk = false) :
    getCurrentGasPrice env = 20000000000
    ∧ calculateEstimatedCost env totalGas
        = jsToFixed6 (fpDiv (fpRound (Frac.ofInt (totalGas * 20000000000)))
            (Frac.ofInt (10 ^ 18))) := by
  obtain ⟨m, hm⟩ := rpcLoop_all_fail env.rpcGasPrice hr
  have h1 : getCurrentGasPrice env = 20000000000 := by
    unfold getCurrentGasPrice
    cases hvv : env.viemGasPrice with
    | ok g =>
      rw [hvv] at hv
      simp [Except.isOk, Except.toBool] at hv
    | error mv =>
      cases hee : env.ethereumGasPrice with
      | ok g =>
        rw [hee] at he
        simp [Except.isOk, Except.toBool] at he
      | error me =>
        rw [hm]
        rfl
  exact ⟨h1, by unfold calculateEstimatedCost; rw [h1]⟩

/-- Witness for C8: in the concrete all-tiers-down environment the gas
price is the 20 gwei default and the cost string for 271000 gas is
computed from it. -/
theorem estimator_never_throws_witness :
    getCurrentGasPrice baseEnv = 20000000000
    ∧ calculateEstimatedCost baseEnv 271000
        = jsToFixed6 (fpDiv (fpRound (Frac.ofInt (271000 * 20000000000)))
            (Frac.ofInt (10 ^ 18))) :=
  estimator_never_throws baseEnv 271000 (by decide) (by decide) (by decide)

/-- The accumulation loop of the Tier-A estimator is the sum of the
per-position resolved gas values. -/
theorem estimateGasLoop_eq_sum (env : Env) :
    ∀ (txs : List EIP7702Transaction) (i : ℕ),
    estimateGasLoop env txs i = ((txs.enumFrom i).map (resolvedGas env)).sum
  | [], _ => rfl
  | tx :: rest, i => by
    rw [List.enumFrom_cons]
    simp only [estimateGasLoop, List.map_cons, List.sum_cons,
      estimateGasLoop_eq_sum env rest (i + 1)]
    rfl

/-- Claim C9: the Tier-A estimator charges each sub-operation its chain
gas estimate, sums them, and applies the fixed 5% margin once to the
sum; when every query succeeds the result uses only queried values, and
a failed query is replaced by the hard-coded per-kind gas hint
`BigInt(tx.gasLimit || "0x5208")`. -/
theorem tierA_gas_estimation (env : Env) (txs : List EIP7702Transaction) :
    signAuthEstimateGasForBundle env txs
      = (txs.enum.map (resolvedGas env)).sum * 105 / 100
    ∧ ((∀ p ∈ txs.enum, (env.gasEstimate p.1).isOk = true) →
        signAuthEstimateGasForBundle env txs
          = (txs.enum.map (fun p => queriedGas env p.1)).sum * 105 / 100)
    ∧ (∀ (i : ℕ) (tx : EIP7702Transaction) (m : String),
        env.gasEstimate i = .error m →
        resolvedGas env (i, tx) = hexToNat0x (tx.gasLimit.getD "0x5208")) := by
  have hmain : signAuthEstimateGasForBundle env txs
      = (txs.enum.map (resolvedGas env)).sum * 105 / 100 := by
    unfold signAuthEstimateGasForBundle
    rw [estimateGasLoop_eq_sum env txs 0]
    rfl
  refine ⟨hmain, ?_, ?_⟩
  · intro hok
    rw [hmain]
    have : txs.enum.map (resolvedGas env)
        = txs.enum.map (fun p => queriedGas env p.1) := by
      apply List.map_congr_left
      intro p hp
      have := hok p hp
      unfold resolvedGas queriedGas
      cases hq : env.gasEstimate p.1 with
      | ok g => rfl
      | error m =>
        rw [hq] at this
        simp [Except.isOk, Except.toBool] at this
    rw [this]
  · intro i tx m hq
    unfold resolvedGas
    rw [hq]

/-- Witness for C9: with every query answering 30000, two
sub-operations estimate to `(30000 + 30000) * 105 / 100 = 63000`. -/
theorem tierA_gas_estimation_witness :
    signAuthEstimateGasForBundle envGasOk [txSeq1, txSeq2]
      = ([(0, txSeq1), (1, txSeq2)].map
          (fun p => queriedGas envGasOk p.1)).sum * 105 / 100
    ∧ signAuthEstimateGasForBundle envGasOk [txSeq1, txSeq2] = 63000 :=
  ⟨(tierA_gas_estimation envGasOk [txSeq1, txSeq2]).2.1 (by decide),
    by decide⟩

/-- Shape of the sequential loop when the first failing outcome sits at
relative index `i`: it performs exactly the first `i + 1` sends and
throws the indexed failure message; nothing after index `i` is sent. -/
theorem runSequential_fail (env : Env) (chain : ℕ) :
    ∀ (txs : List EIP7702Transaction) (i0 i : ℕ) (hashes : List String),
    i < txs.length →
    (∀ j, j < i → (env.txOutcome (i0 + j)).isSuccess = true) →
    (env.txOutcome (i0 + i)).isSuccess = false →
    (runSequential env chain txs i0 hashes).1
      = (txs.take (i + 1)).map
          (fun tx => Effect.sendTx chain tx.toAddr tx.data tx.value)
    ∧ ∃ m, (runSequential env chain txs i0 hashes).2
        = .error (seqFailMsg (i0 + i) m)
  | [], i0, i, hashes, hlen, _, _ => absurd hlen (by simp)
  | tx :: rest, i0, i, hashes, hlen, hsucc, hfail => by
    cases i with
    | zero =>
      rw [Nat.add_zero] at hfail
      cases ho : env.txOutcome i0 with
      | sendError m =>
        refine ⟨by simp [runSequential, ho], ⟨m, by simp [runSequential, ho]⟩⟩
      | mined h success =>
        rw [ho] at hfail
        have hs : success = false := by
          cases success
          · rfl
          · simp [TxOutcome.isSuccess] at hfail
        subst hs
        refine ⟨by simp [runSequential, ho],
          ⟨onChainFailMsg i0, by simp [runSequential, ho]⟩⟩
    | succ i2 =>
      have h0 : (env.txOutcome i0).isSuccess = true := by
        have := hsucc 0 (Nat.succ_pos _)
        rwa [Nat.add_zero] at this
      cases ho : env.txOutcome i0 with
      | sendError m =>
        rw [ho] at h0
        simp [TxOutcome.isSuccess] at h0
      | mined h success =>
        rw [ho] at h0
        have hs : success = true := by
          cases success
          · simp [TxOutcome.isSuccess] at h0
          · rfl
        subst hs
        have harith : ∀ j : ℕ, i0 + (j + 1) = (i0 + 1) + j := by omega
        have ih := runSequential_fail env chain rest (i0 + 1) i2 (hashes ++ [h])
          (by simpa using Nat.lt_of_succ_lt_succ hlen)
          (fun j hj => by
            have := hsucc (j + 1) (Nat.succ_lt_succ hj)
            rwa [harith j] at this)
          (by
            have := hfail
            rwa [harith i2] at this)
        obtain ⟨heff, m, herr⟩ := ih
        refine ⟨?_, ⟨m, ?_⟩⟩
        · simp [runSequential, ho, heff]
        · simp [runSequential, ho, herr, harith i2]

/-- Claim C3 (counterexample): two runs that differ only in the hash of
the first (successful) sub-operation produce the very same failure
report when the second sub-operation reverts — so the report cannot
contain the hashes of the prior successes; it identifies only the
failing index.  The third sub-operation is never submitted (only two
send effects occur). -/
theorem seq_failure_report_counterexample :
    (executeBatchTransactions envSeqA stExec [txSeq1, txSeq2, txSeq3]).2
      = (executeBatchTransactions envSeqB stExec [txSeq1, txSeq2, txSeq3]).2
    ∧ envSeqA.txOutcome 0 ≠ envSeqB.txOutcome 0
    ∧ (executeBatchTransactions envSeqA stExec [txSeq1, txSeq2, txSeq3]).1.length = 2
    ∧ (executeBatchTransactions envSeqA stExec [txSeq1, txSeq2, txSeq3]).2
      = .error (seqFailMsg 1 (onChainFailMsg 1)) :=
  ⟨rfl, by decide, by decide, rfl⟩

/-- Claim C3 (amended): in the sequential fallback, when the wallet is
on the resolved chain and the first failing sub-operation sits at index
`i`, exactly the first `i + 1` sub-operations are submitted — the
remaining ones never are — and the reported failure is an error whose
message identifies the failing index (1-based); the hashes of the prior
successes are not part of the report. -/
theorem seq_fallback_aborts_at_failure (env : Env) (st : ManagerState)
    (txs : List EIP7702Transaction) (i : ℕ)
    (hchain : env.chainId = st.targetChainId.getD (st.currentChainId.getD 11155111))
    (hlen : i < txs.length)
    (hsucc : ∀ j, j < i → (env.txOutcome j).isSuccess = true)
    (hfail : (env.txOutcome i).isSuccess = false) :
    (executeBatchTransactions env st txs).1
      = (txs.take (i + 1)).map
          (fun tx => Effect.sendTx env.chainId tx.toAddr tx.data tx.value)
    ∧ ∃ m, (executeBatchTransactions env st txs).2 = .error (seqFailMsg i m) := by
  have hrun := runSequential_fail env env.chainId txs 0 i []
    hlen (fun j hj => by simpa using hsucc j hj) (by simpa using hfail)
  obtain ⟨heff, m, herr⟩ := hrun
  have hens : ensureCorrectNetwork env
      (st.targetChainId.getD (st.currentChainId.getD 11155111)) = (true, env) := by
    unfold ensureCorrectNetwork
    rw [if_pos hchain]
  unfold executeBatchTransactions
  simp only [hens]
  rw [Nat.zero_add] at herr
  rw [herr]
  exact ⟨heff, ⟨m, rfl⟩⟩

/-- Witness for the amended C3: three sub-operations, the second
reverts — the first two are submitted, the third is not, and the report
names index 2. -/
theorem seq_fallback_aborts_at_failure_witness :
    (executeBatchTransactions envSeqB stExec [txSeq1, txSeq2, txSeq3]).1
      = ([txSeq1, txSeq2].map
          (fun tx => Effect.sendTx envSeqB.chainId tx.toAddr tx.data tx.value))
    ∧ ∃ m, (executeBatchTransactions envSeqB stExec [txSeq1, txSeq2, txSeq3]).2
        = .error (seqFailMsg 1 m) := by
  have h := seq_fallback_aborts_at_failure envSeqB stExec [txSeq1, txSeq2, txSeq3] 1
    (by decide) (by decide)
    (by
      intro j hj
      interval_cases j
      decide)
    (by decide)
  exact ⟨h.1, h.2⟩

/-- A successful network ensure leaves the wallet on the target chain. -/
theorem ensure_chain_of_true {env : Env} {target : ℕ} {env2 : Env}
    (h : ensureCorrectNetwork env target = (true, env2)) : env2.chainId = target := by
  unfold ensureCorrectNetwork at h
  split at h
  · next hc =>
    cases h
    exact hc
  · split at h
    · cases h
      rfl
    · split at h
      · cases h
        rfl
      · split at h
        · cases h
          rfl
        · simp at h

/-- When the wallet sits on the wrong chain and no switch strategy
works, the network ensure fails without changing anything. -/
theorem ensure_false_of_no_switch {env : Env} {target : ℕ}
    (hne : env.chainId ≠ target) (h1 : env.standardSwitchOk = false)
    (h2 : env.ambireSwitchOk = false) (h3 : env.addChainOk = false) :
    ensureCorrectNetwork env target = (false, env) := by
  unfold ensureCorrectNetwork
  rw [if_neg hne, if_neg (by simp [h1]), if_neg (by simp [h2]),
    if_neg (by simp [h3])]

/-- Every effect of the ERC-20 allowance check is on the wallet chain. -/
theorem checkAndApproveERC20_effects_chain (env : Env)
    (tokenAddress ownerAddress : String) (amount : ℕ) (pectraContract : String) :
    ∀ e ∈ (checkAndApproveERC20 env tokenAddress ownerAddress amount
        pectraContract).1, e.chain = env.chainId := by
  intro e he
  unfold checkAndApproveERC20 at he
  split at he
  · simp at he
  · split at he
    · simp at he
      subst he
      rfl
    · simp at he

/-- Every effect of the ERC-721 approval check is on the wallet chain. -/
theorem checkAndApproveERC721_effects_chain (env : Env)
    (tokenAddress ownerAddress : String) (tokenId : ℕ) (pectraContract : String) :
    ∀ e ∈ (checkAndApproveERC721 env tokenAddress ownerAddress tokenId
        pectraContract).1, e.chain = env.chainId := by
  intro e he
  unfold checkAndApproveERC721 at he
  split at he
  · simp at he
  · split at he
    · simp at he
      subst he
      rfl
    · simp at he

/-- Every effect of the allowance pre-flight is on the wallet chain. -/
theorem approvalPhase_effects_chain (env : Env) (account pectraContract : String) :
    ∀ txs, ∀ e ∈ (approvalPhase env account pectraContract txs).1,
      e.chain = env.chainId
  | [] => by
    intro e he
    simp [approvalPhase] at he
  | tx :: rest => by
    intro e he
    have ih := approvalPhase_effects_chain env account pectraContract rest
    unfold approvalPhase at he
    split at he
    · exact ih e he
    · split at he
      · split at he
        · next effs m hck =>
          have := checkAndApproveERC20_effects_chain env tx.toAddr account
            (hexToNat (strDrop (strDrop tx.data 10) 64)) pectraContract e
          rw [hck] at this
          exact this he
        · next effs u hck =>
          rcases List.mem_append.mp he with hl | hr
          · have := checkAndApproveERC20_effects_chain env tx.toAddr account
              (hexToNat (strDrop (strDrop tx.data 10) 64)) pectraContract e
            rw [hck] at this
            exact this hl
          · exact ih e hr
      · split at he
        · split at he
          · next effs m hck =>
            have := checkAndApproveERC721_effects_chain env tx.toAddr account
              (hexToNat (strDrop (strDrop tx.data 10) 128)) pectraContract e
            rw [hck] at this
            exact this he
          · next effs u hck =>
            rcases List.mem_append.mp he with hl | hr
            · have := checkAndApproveERC721_effects_chain env tx.toAddr account
                (hexToNat (strDrop (strDrop tx.data 10) 128)) pectraContract e
              rw [hck] at this
              exact this hl
            · exact ih e hr
        · exact ih e he

/-- Every send of the sequential loop is on the chain it was given. -/
theorem runSequential_effects_chain (env : Env) (chain : ℕ) :
    ∀ txs i hashes, ∀ e ∈ (runSequential env chain txs i hashes).1,
      e.chain = chain
  | [], _, _ => by
    intro e he
    simp [runSequential] at he
  | tx :: rest, i, hashes => by
    intro e he
    unfold runSequential at he
    cases ho : env.txOutcome i with
    | sendError m =>
      rw [ho] at he
      simp at he
      subst he
      rfl
    | mined h success =>
      rw [ho] at he
      cases success with
      | false =>
        simp at he
        subst he
        rfl
      | true =>
        simp at he
        rcases he with he | he
        · subst he
          rfl
        · exact runSequential_effects_chain env chain rest (i + 1) (hashes ++ [h]) e he

/-- Every effect of the sequential fallback happens on the configured
target chain. -/
theorem executeBatchTransactions_effects_chain (env : Env) (st : ManagerState)
    (txs : List EIP7702Transaction) (c : ℕ) (hc : st.targetChainId = some c) :
    ∀ e ∈ (executeBatchTransactions env st txs).1, e.chain = c := by
  intro e he
  unfold executeBatchTransactions at he
  rw [hc] at he
  simp only [Option.getD_some] at he
  split at he
  · simp at he
  · next env2 heq =>
    have h2 : env2.chainId = c := ensure_chain_of_true heq
    rw [h2] at he
    split at he
    · exact runSequential_effects_chain env2 c txs 0 [] e he
    · exact runSequential_effects_chain env2 c txs 0 [] e he

/-- Every effect of `executeEIP7702Bundle` happens on the configured
target chain. -/
theorem executeEIP7702Bundle_effects_chain (env : Env) (st : ManagerState)
    (bundle : EIP7702Bundle) (c : ℕ) (hc : st.targetChainId = some c) :
    ∀ e ∈ (executeEIP7702Bundle env st bundle).1, e.chain = c := by
  intro e he
  unfold executeEIP7702Bundle at he
  rcases hinfo : checkEIP7702Support env with ⟨sup, caddr, cid⟩
  rw [hinfo] at he
  cases sup with
  | false =>
    exact executeBatchTransactions_effects_chain env st bundle.transactions c hc e he
  | true =>
    cases caddr with
    | none =>
      exact executeBatchTransactions_effects_chain env st bundle.transactions c hc e he
    | some pectraContract =>
      cases cid with
      | none =>
        exact executeBatchTransactions_effects_chain env st bundle.transactions c hc e he
      | some cid2 =>
        rw [hc] at he
        simp only [Option.getD_some] at he
        split at he
        · simp at he
        · next env2 heq =>
          have h2 : env2.chainId = c := ensure_chain_of_true heq
          split at he
          · simp at he
          · split at he
            · have := approvalPhase_effects_chain env2 env2.account pectraContract
                bundle.transactions e he
              rw [h2] at this
              exact this
            · split at he
              · rcases List.mem_append.mp he with hl | hr
                · have := approvalPhase_effects_chain env2 env2.account pectraContract
                    bundle.transactions e hl
                  rw [h2] at this
                  exact this
                · simp at hr
                  subst hr
                  exact h2
              · split at he
                · rcases List.mem_append.mp he with hl | hr
                  · have := approvalPhase_effects_chain env2 env2.account pectraContract
                      bundle.transactions e hl
                    rw [h2] at this
                    exact this
                  · simp at hr
                    subst hr
                    exact h2
                · rcases List.mem_append.mp he with hl | hr
                  · have := approvalPhase_effects_chain env2 env2.account pectraContract
                      bundle.transactions e hl
                    rw [h2] at this
                    exact this
                  · simp at hr
                    subst hr
                    exact h2

/-- Claim C2 (counterexample): the preview reports Supported for chain
11155111; at execute time the wallet sits on chain 1, yet `execute` does
not fail with a wrong-network error — because the wallet honours the
automatic switch request, execution proceeds (on the switched-back
chain) and succeeds. -/
theorem capability_recheck_counterexample :
    checkEIP7702Support previewEnv = ⟨true, some pectraSepolia, some 11155111⟩
    ∧ envWrongSwitch.chainId = 1
    ∧ stExec.targetChainId = some 11155111
    ∧ (executeEIP7702Bundle envWrongSwitch stExec emptyBundle).2 = .ok "0xabc123" :=
  ⟨rfl, rfl, rfl, rfl⟩

/-- Claim C2 (amended): the capability check reads the wallet chain id
fresh — its result is a function of the chain id at call time, never of
an earlier call; when the wallet sits on chain 1 while the target is
11155111 and no switch strategy works, `execute` fails with the
wrong-network error having submitted nothing; and every write `execute`
ever performs is on the configured target chain, so chain-11155111
parameters are never submitted on another chain. -/
theorem capability_recheck_and_network_guard :
    (∀ e1 e2 : Env, e1.chainId = e2.chainId →
      checkEIP7702Support e1 = checkEIP7702Support e2)
    ∧ (∀ (bundle : EIP7702Bundle) (st : ManagerState) (env : Env),
        st.targetChainId = some 11155111 → env.chainId = 1 →
        env.standardSwitchOk = false → env.ambireSwitchOk = false →
        env.addChainOk = false →
        executeEIP7702Bundle env st bundle
          = ([], .error (bundleFailMsg (manualSwitchMsgAtomic 11155111))))
    ∧ (∀ (env : Env) (st : ManagerState) (bundle : EIP7702Bundle) (c : ℕ),
        st.targetChainId = some c →
        ∀ e ∈ (executeEIP7702Bundle env st bundle).1, e.chain = c) := by
  refine ⟨?_, ?_, ?_⟩
  · intro e1 e2 h
    unfold checkEIP7702Support
    rw [h]
  · intro bundle st env hst hchain h1 h2 h3
    have hinfo : checkEIP7702Support env
        = ⟨true, some "0x9eCc1Ae7B614e6d63Ddc193070a2a53ADf9fE455", some 1⟩ := by
      unfold checkEIP7702Support
      rw [hchain]
      rfl
    have hne : env.chainId ≠ 11155111 := by
      rw [hchain]
      decide
    have hens := ensure_false_of_no_switch hne h1 h2 h3
    unfold executeEIP7702Bundle
    rw [hinfo]
    simp only [hst, Option.getD_some, hens]
  · intro env st bundle c hc
    exact executeEIP7702Bundle_effects_chain env st bundle c hc

/-- Witness for the amended C2: with the wallet stuck on chain 1 and the
target 11155111, executing a one-transaction bundle yields the wrapped
wrong-network error and performs no write at all. -/
theorem capability_recheck_and_network_guard_witness :
    executeEIP7702Bundle envWrongStay stExec someBundle
      = ([], .error (bundleFailMsg (manualSwitchMsgAtomic 11155111))) :=
  capability_recheck_and_network_guard.2.1 someBundle stExec envWrongStay
    rfl rfl rfl rfl rfl

/-! ## Bridging the fraction model to ℚ -/

/-- `Frac.ofInt` denotes the integer. -/
theorem Frac.val_ofInt (n : ℤ) : (Frac.ofInt n).val = (n : ℚ) := by
  simp [Frac.val, Frac.ofInt]

/-- `Frac.mul` denotes rational multiplication. -/
theorem Frac.val_mul (a b : Frac) : (a.mul b).val = a.val * b.val := by
  unfold Frac.val Frac.mul
  push_cast
  rw [div_mul_div_comm]

/-- `Frac.neg` denotes rational negation. -/
theorem Frac.val_neg (a : Frac) : a.neg.val = -a.val := by
  unfold Frac.val Frac.neg
  push_cast
  rw [neg_div]

/-- `Frac.divF` denotes rational division. -/
theorem Frac.val_divF (a b : Frac) : (a.divF b).val = a.val / b.val := by
  unfold Frac.val Frac.divF
  rcases lt_trichotomy b.num 0 with hb | hb | hb
  · rw [if_neg (by omega)]
    have h1 : (((-b.num).toNat : ℕ) : ℚ) = -(b.num : ℚ) := by
      exact_mod_cast Int.toNat_of_nonneg (by omega : (0 : ℤ) ≤ -b.num)
    push_cast
    rw [h1, mul_neg, neg_div_neg_eq, div_div_eq_mul_div, div_mul_eq_mul_div, div_div]
  · rw [if_pos (by omega), hb]
    push_cast
    simp
  · rw [if_pos (by omega)]
    have h1 : ((b.num.toNat : ℕ) : ℚ) = (b.num : ℚ) := by
      exact_mod_cast Int.toNat_of_nonneg (by omega : (0 : ℤ) ≤ b.num)
    push_cast
    rw [h1, div_div_eq_mul_div, div_mul_eq_mul_div, div_div]

/-- `Frac.ble` decides rational `≤` (positive denominators). -/
theorem Frac.ble_iff {a b : Frac} (ha : 0 < a.den) (hb : 0 < b.den) :
    a.ble b = true ↔ a.val ≤ b.val := by
  unfold Frac.ble Frac.val
  rw [decide_eq_true_eq,
    div_le_div_iff (by exact_mod_cast ha) (by exact_mod_cast hb)]
  constructor
  · intro h
    exact_mod_cast h
  · intro h
    exact_mod_cast h

/-- `Frac.blt` decides rational `<` (positive denominators). -/
theorem Frac.blt_iff {a b : Frac} (ha : 0 < a.den) (hb : 0 < b.den) :
    a.blt b = true ↔ a.val < b.val := by
  unfold Frac.blt Frac.val
  rw [decide_eq_true_eq,
    div_lt_div_iff (by exact_mod_cast ha) (by exact_mod_cast hb)]
  constructor
  · intro h
    exact_mod_cast h
  · intro h
    exact_mod_cast h

/-- `Frac.floor` is the rational floor. -/
theorem Frac.floor_val (a : Frac) : a.floor = ⌊a.val⌋ := by
  unfold Frac.floor Frac.val
  rw [Rat.floor_intCast_div_natCast]
  exact Int.fdiv_eq_ediv _ (by positivity)

/-- Sanity: binary64 rounding fixes exactly representable values (up to
the unreduced representation, compared by value). -/
theorem fpRound_small_int :
    (fpRound (Frac.ofInt 3)).beq (Frac.ofInt 3) = true
    ∧ (fpRound (Frac.ofInt 21000)).beq (Frac.ofInt 21000) = true
    ∧ (fpRound ⟨1, 2⟩).beq ⟨1, 2⟩ = true :=
  ⟨by decide, by decide, by decide⟩

/-- Sanity: binary64 rounding moves values a double cannot represent —
`0.3` becomes the classical `0.299999999999999988897769753748…`, i.e.
`5404319552844595 / 2^54`; `10^18` (exactly representable) stays; and
`parseFloat("1.000000000000000001")` collapses to `1`. -/
theorem fpRound_moves_unrepresentable :
    (fpRound ⟨3, 10⟩).beq ⟨5404319552844595, 2 ^ 54⟩ = true
    ∧ (fpRound ⟨3, 10⟩).beq ⟨3, 10⟩ = false
    ∧ (fpRound (Frac.ofInt (10 ^ 18))).beq (Frac.ofInt (10 ^ 18)) = true
    ∧ (jsParseFloat ⟨1000000000000000001, 18⟩).beq (Frac.ofInt 1) = true :=
  ⟨by decide, by decide, by decide, by decide⟩

/-- Sanity: the specification scenario values — balance `"2.5"` with 6
decimals scales to `2500000` and `"1.0"` with 18 decimals to `10^18`,
on both the float path and the exact path. -/
theorem scaling_spec_scenarios :
    parseTokenAmount ⟨25, 1⟩ 6 = 2500000
    ∧ exactScaledAmount ⟨25, 1⟩ 6 = 2500000
    ∧ parseTokenAmount ⟨10, 1⟩ 18 = 1000000000000000000
    ∧ parseEtherDec ⟨10, 1⟩ = 1000000000000000000 :=
  ⟨by decide, by decide, by decide, by decide⟩
